import Mathlib

/-!
Shallow embedding of the lazy-loading core (`src/lazyload.js`, `src/utils.js`).

JavaScript runtime values are modelled by `JSVal`; DOM elements live in an
explicit store (`List Elem`) indexed by natural-number ids; the platform
query capability (`document.querySelector` / `querySelectorAll`) is an
explicit environment `DOMEnv`.  Thrown exceptions are modelled with
`Except`, the error value carrying the mutated state at the throw point,
since JavaScript does not roll back side effects on `throw`.
-/

namespace Lazyload

/-- A JavaScript runtime value, as far as the library inspects one:
`null`, `undefined`, numbers, strings, arrays, DOM nodes (with their
`nodeType` and whether they are `instanceof Element`), and functions. -/
inductive JSVal where
  | null
  | undef
  | num (q : ℚ)
  | str (s : String)
  | arr (xs : List JSVal)
  | node (id : Nat) (nodeType : Nat) (isElementInstance : Bool)
  | func

/-- `v === null`. -/
def JSVal.isNull : JSVal → Bool
  | .null => true
  | _ => false

/-- `v === undefined`. -/
def JSVal.isUndef : JSVal → Bool
  | .undef => true
  | _ => false

/-- `v === q` for a number literal `q` (strict equality: a non-number is
never strictly equal to a number). -/
def JSVal.eqNum (v : JSVal) (q : ℚ) : Bool :=
  match v with
  | .num r => decide (r = q)
  | _ => false

/-- JavaScript truthiness. -/
def JSVal.truthy : JSVal → Bool
  | .null => false
  | .undef => false
  | .num q => decide (q ≠ 0)
  | .str s => decide (s ≠ "")
  | .arr _ => true
  | .node _ _ _ => true
  | .func => true

/-- `typeof v === 'number'`. -/
def JSVal.isNumber : JSVal → Bool
  | .num _ => true
  | _ => false

/-- The numeric value of a number (junk `0` otherwise; only read under an
`isNumber` guard, mirroring JavaScript short-circuit evaluation). -/
def JSVal.asNum : JSVal → ℚ
  | .num q => q
  | _ => 0

/-- `typeof v === 'string'`. -/
def JSVal.isString : JSVal → Bool
  | .str _ => true
  | _ => false

/-- The string value of a string (junk `""` otherwise). -/
def JSVal.asString : JSVal → String
  | .str s => s
  | _ => ""

/-- `Array.isArray(v)`. -/
def JSVal.isArray : JSVal → Bool
  | .arr _ => true
  | _ => false

/-- The element list of an array (junk `[]` otherwise). -/
def JSVal.asArray : JSVal → List JSVal
  | .arr xs => xs
  | _ => []

/-- `typeof v === 'function'`. -/
def JSVal.isFunction : JSVal → Bool
  | .func => true
  | _ => false

/-- The store id of a DOM node (junk `0` otherwise). -/
def JSVal.nodeId : JSVal → Nat
  | .node i _ _ => i
  | _ => 0

/-- `v instanceof Element`. -/
def JSVal.instanceofElement : JSVal → Bool
  | .node _ _ inst => inst
  | _ => false

/-- `v.nodeType` (junk `0` for non-nodes). -/
def JSVal.nodeTypeOf : JSVal → Nat
  | .node _ nt _ => nt
  | _ => 0

/-- `utils.js` `validDOMElement`: `element && element instanceof Element
&& element.nodeType === 1`. -/
def validDOMElement (element : JSVal) : Bool :=
  if element.truthy && element.instanceofElement && (element.nodeTypeOf == 1) then
    true
  else false

/-- The platform DOM query capability, external to the core:
`querySelector` on the document (used by `validCSSSelector`), and
`querySelectorAll` on a container (`JSVal.null` meaning the document). -/
structure DOMEnv where
  querySelector : JSVal → Option Nat
  querySelectorAll : JSVal → JSVal → List Nat

/-- `utils.js` `validCSSSelector`: the selector matches at least one
document element. -/
def validCSSSelector (env : DOMEnv) (selector : JSVal) : Bool :=
  let checkSelector := env.querySelector selector
  if checkSelector.isSome then true else false

/-- The error taxonomy of the specification, plus the untyped runtime
failure (JavaScript `TypeError`) that sits outside it.  The source throws
plain `Error` objects; the constructor records which taxonomy class the
throw site belongs to and the message carried. -/
inductive JSError where
  | invalidConfig (msg : String)
  | invalidArgument (msg : String)
  | missingResourceLocator (msg : String)
  | typeError (msg : String)
  deriving DecidableEq

def msgRoot : String :=
  "Failed to construct \"LazyLoad\": \"root\" must have to be a valid DOM Element!"

def msgLoadBefore : String :=
  "Failed to construct \"LazyLoad\": \"loadBefore\" must have to be a positive number!"

def msgLoadAfter : String :=
  "Failed to construct \"LazyLoad\": \"loadAfter\" must have to be a number between 0 and 1!"

def msgWrapper : String :=
  "Failed to construct \"LazyLoad\": \"wrapper\" must have to be a valid DOM Element or null!"

def msgSrcTarget : String :=
  "Failed to construct \"LazyLoad\": \"srcTarget\" is must have to be a valid CSS selector or null!"

def msgAttr : String :=
  "Failed to construct \"LazyLoad\": \"attr\" is must have to be a string or null!"

def msgImgPath : String :=
  "Failed to construct \"LazyLoad\": Image path must have to be a string!"

def msgMissingLazyUrl : String :=
  "Failed to construct \"LazyLoad\": The url attribute name must have to be `data-lazy-url`!"

def msgViewportEntry : String :=
  "Failed to construct \"LazyLoad\": \"viewportEntry\" is required and must be a valid DOM Element!"

def msgExeFn : String :=
  "Failed to construct \"LazyLoad\": \"exeFn\" must be a function!"

def msgUndefinedIndex : String :=
  "Cannot set properties of undefined"

/-- JavaScript number-to-string rendering, as used by the template
literal producing `rootMargin` (integers render without a decimal part). -/
def jsNumToString (q : ℚ) : String :=
  if q.den = 1 then toString q.num else toString q

/-- The observer-options object stored in the private `#options` field. -/
structure ObserverOptions where
  root : JSVal
  rootMargin : String
  threshold : JSVal

/-- JavaScript default-parameter semantics: the default applies exactly
when the supplied value is `undefined`. -/
def jsDefault (v d : JSVal) : JSVal :=
  if v.isUndef then d else v

/-- The body of `#config` after parameter defaulting (lines 30-58 of
`lazyload.js`): validates `root`, `loadBefore`, `loadAfter` and builds the
observer-options object, throwing on the first violated condition. -/
def configCheck (root loadBefore loadAfter : JSVal) : Except JSError ObserverOptions :=
  let isValidDOM := if !root.isNull then validDOMElement root else true
  if isValidDOM = false then
    .error (.invalidConfig msgRoot)
  else if loadBefore.isNull || loadBefore.isUndef ||
      !loadBefore.isNumber || decide (loadBefore.asNum < 0) then
    .error (.invalidConfig msgLoadBefore)
  else if loadAfter.isNull || loadAfter.isUndef ||
      !loadAfter.isNumber || decide (loadAfter.asNum < 0) || decide (1 < loadAfter.asNum) then
    .error (.invalidConfig msgLoadAfter)
  else
    .ok { root := root, rootMargin := jsNumToString loadBefore.asNum ++ "px",
          threshold := loadAfter }

/-- `#config`: applies the declared parameter defaults
(`root = null, loadBefore = 0, loadAfter = 0`) and runs the validation
body. -/
def configMethod (root loadBefore loadAfter : JSVal) : Except JSError ObserverOptions :=
  configCheck (jsDefault root JSVal.null)
    (jsDefault loadBefore (JSVal.num 0)) (jsDefault loadAfter (JSVal.num 0))

/-- A DOM element in the store: its content attributes (among them the
transient `data-lazy-url` datum, written through `dataset.lazyUrl`) and
its default source property `src`. -/
structure Elem where
  attrs : List (String × String)
  src : Option String
  deriving DecidableEq

instance : Inhabited Elem := ⟨⟨[], none⟩⟩

/-- `getAttribute` (also the `dataset` read, for `data-` keys). -/
def getAttr (e : Elem) (name : String) : Option String :=
  (e.attrs.find? (fun p => p.1 == name)).map (fun p => p.2)

/-- `setAttribute`: overwrite in place when present, else append. -/
def setAttr (e : Elem) (name v : String) : Elem :=
  if (e.attrs.find? (fun p => p.1 == name)).isSome then
    { e with attrs := e.attrs.map (fun p => if p.1 == name then (p.1, v) else p) }
  else
    { e with attrs := e.attrs ++ [(name, v)] }

/-- `removeAttribute`. -/
def removeAttr (e : Elem) (name : String) : Elem :=
  { e with attrs := e.attrs.filter (fun p => !(p.1 == name)) }

/-- Update the element at index `i` of the store, identity out of range. -/
def modifyIdx (f : Elem → Elem) : Nat → List Elem → List Elem
  | _, [] => []
  | 0, e :: rest => f e :: rest
  | n + 1, e :: rest => e :: modifyIdx f n rest

/-- `srcElem.dataset.lazyUrl || null`: the transient locator, with both a
missing attribute and the empty string collapsing to `null` (falsy). -/
def lazyUrlOrNull (e : Elem) : Option String :=
  match getAttr e "data-lazy-url" with
  | some s => if s == "" then none else some s
  | none => none

/-- The orchestrator's private state: the stored `#options`, the identity
(generation number) of the current `#observer` handle, a fresh-generation
counter, and the target ids registered with the current observer. -/
structure LazyState where
  options : ObserverOptions
  observer : Option Nat
  nextGen : Nat
  observedTargets : List Nat

/-- The `#options` value built by the constructor's `#config()` call. -/
def initialOptions : ObserverOptions :=
  { root := JSVal.null, rootMargin := "0px", threshold := JSVal.num 0 }

/-- The state of a freshly constructed `Lazyload` instance. -/
def initLazyState : LazyState :=
  { options := initialOptions, observer := none, nextGen := 0, observedTargets := [] }

/-- The `options` argument object of `media`/`execute` (a missing
property reads as `undefined`); its declared default is the all-defaults
sentinel. -/
structure OptionsObj where
  root : JSVal
  loadBefore : JSVal
  loadAfter : JSVal

/-- The test at the head of the reconfiguration step of `media` and
`execute`: `options.root !== null || options.loadBefore !== 0 ||
options.loadAfter !== 0`. -/
def nonDefaultOptions (options : OptionsObj) : Bool :=
  !options.root.isNull || !options.loadBefore.eqNum 0 || !options.loadAfter.eqNum 0

/-- The all-defaults sentinel `{root: null, loadBefore: 0, loadAfter: 0}`. -/
def defaultOptionsObj : OptionsObj :=
  { root := JSVal.null, loadBefore := JSVal.num 0, loadAfter := JSVal.num 0 }

/-- The `lazyUrls` assignment loop of `media` (lines 106-115): for each
locator in order, throw unless it is a string, then write it through
`imgElements[i].dataset.lazyUrl`; indexing past the resolved element list
yields `undefined`, whose property write is the untyped runtime failure. -/
def assignLazyUrls : List JSVal → List Nat → List Elem →
    Except (JSError × List Elem) (List Elem)
  | [], _, dom => .ok dom
  | u :: urls, ids, dom =>
    if u.isString = false then
      .error (.invalidArgument msgImgPath, dom)
    else
      match ids with
      | [] => .error (.typeError msgUndefinedIndex, dom)
      | id :: ids' =>
        assignLazyUrls urls ids'
          (modifyIdx (fun e => setAttr e "data-lazy-url" u.asString) id dom)

/-- `media`: argument validation, conditional reconfiguration, observer
replacement, element resolution, locator assignment, registration.  The
error value carries the state at the throw point (JavaScript performs no
rollback). -/
def media (st : LazyState) (dom : List Elem) (env : DOMEnv)
    (wrapper srcTarget attr lazyUrls : JSVal) (options : OptionsObj) :
    Except (JSError × LazyState × List Elem) (LazyState × List Elem) :=
  if !wrapper.isNull && !validDOMElement wrapper then
    .error (.invalidArgument msgWrapper, st, dom)
  else if !srcTarget.isNull &&
      (!srcTarget.isString || !validCSSSelector env srcTarget) then
    .error (.invalidArgument msgSrcTarget, st, dom)
  else if !attr.isNull && (attr.isUndef || !attr.isString) then
    .error (.invalidArgument msgAttr, st, dom)
  else
    match (if nonDefaultOptions options then
          configMethod options.root options.loadBefore options.loadAfter
        else .ok st.options) with
    | .error e => .error (e, st, dom)
    | .ok newOpts =>
      let st1 : LazyState :=
        { options := newOpts, observer := some st.nextGen,
          nextGen := st.nextGen + 1, observedTargets := [] }
      let imgElements :=
        env.querySelectorAll (if wrapper.truthy then wrapper else JSVal.null) srcTarget
      match assignLazyUrls (if lazyUrls.isArray then lazyUrls.asArray else [])
          imgElements dom with
      | .error (e, dom1) => .error (e, st1, dom1)
      | .ok dom1 => .ok ({ st1 with observedTargets := imgElements }, dom1)

/-- One intersection-change record as delivered by the observation
capability: the target element's id and its `isIntersecting` flag. -/
structure Entry where
  target : Nat
  isIntersecting : Bool
  deriving DecidableEq

/-- The state the media notification handler acts on: the element store
and the ids currently registered with the observer. -/
structure ObsState where
  dom : List Elem
  observed : List Nat
  deriving DecidableEq

/-- One iteration of the closure returned by `#renderMedia(attr)`: on an
intersecting record, read the transient locator; when present, set `attr`
(if truthy) or the `src` property, clear `data-lazy-url`, and unobserve
the target; when absent, throw. -/
def renderMediaStep (attr : JSVal) (st : ObsState) (entry : Entry) :
    Except (JSError × ObsState) ObsState :=
  if entry.isIntersecting then
    let srcElem := st.dom.getD entry.target default
    match lazyUrlOrNull srcElem with
    | some path =>
      let srcElem1 :=
        if attr.truthy then setAttr srcElem attr.asString path
        else { srcElem with src := some path }
      let srcElem2 := removeAttr srcElem1 "data-lazy-url"
      .ok { dom := modifyIdx (fun _ => srcElem2) entry.target st.dom,
            observed := st.observed.filter (fun t => !(t == entry.target)) }
    | none => .error (.missingResourceLocator msgMissingLazyUrl, st)
  else .ok st

/-- The closure returned by `#renderMedia(attr)` applied to a delivered
batch: `entries.forEach`, a throw propagating out of the loop. -/
def renderMedia (attr : JSVal) (entries : List Entry) (st : ObsState) :
    Except (JSError × ObsState) ObsState :=
  entries.foldlM (renderMediaStep attr) st

/-- The state the execution notification handler acts on: the ids
registered with the observer and the number of `exeFn` invocations. -/
structure ExecObsState where
  observed : List Nat
  calls : Nat
  deriving DecidableEq

/-- One iteration of the closure returned by
`#handleFunctionExecution(exeFn)`: on an intersecting record, invoke the
callback and unobserve the target. -/
def handleFunctionExecutionStep (st : ExecObsState) (entry : Entry) : ExecObsState :=
  if entry.isIntersecting then
    { observed := st.observed.filter (fun t => !(t == entry.target)),
      calls := st.calls + 1 }
  else st

/-- The closure returned by `#handleFunctionExecution(exeFn)` applied to
a delivered batch. -/
def handleFunctionExecution (entries : List Entry) (st : ExecObsState) : ExecObsState :=
  entries.foldl handleFunctionExecutionStep st

/-- `execute`: argument validation, conditional reconfiguration, observer
replacement, registration of the single target. -/
def execute (st : LazyState) (viewportEntry exeFn : JSVal) (options : OptionsObj) :
    Except (JSError × LazyState) LazyState :=
  if validDOMElement viewportEntry = false then
    .error (.invalidArgument msgViewportEntry, st)
  else if exeFn.isFunction = false then
    .error (.invalidArgument msgExeFn, st)
  else
    match (if nonDefaultOptions options then
          configMethod options.root options.loadBefore options.loadAfter
        else .ok st.options) with
    | .error e => .error (e, st)
    | .ok newOpts =>
      .ok { options := newOpts, observer := some st.nextGen,
            nextGen := st.nextGen + 1, observedTargets := [viewportEntry.nodeId] }

/-- Does a validation result carry an `InvalidConfig` failure? -/
def isInvalidConfig : Except JSError ObserverOptions → Bool
  | .error (.invalidConfig _) => true
  | _ => false

/-- A blank element: no attributes, no source assigned. -/
def blankElem : Elem := ⟨[], none⟩

/-- Fixture environment: the selector matches a document element, and
resolution yields two elements (ids 0 and 1). -/
def envTwo : DOMEnv := ⟨fun _ => some 0, fun _ _ => [0, 1]⟩

/-- Fixture environment: the selector matches a document element, and
resolution yields one element (id 0). -/
def envOne : DOMEnv := ⟨fun _ => some 0, fun _ _ => [0]⟩

/-- Fixture environment: the selector matches a document element, but
resolution inside the queried container yields no elements. -/
def envNone : DOMEnv := ⟨fun _ => some 0, fun _ _ => []⟩

/-! ## Helper lemmas -/

lemma find_map_overwrite (l : List (String × String)) (n v : String) :
    ((l.map (fun p => if p.1 == n then (p.1, v) else p)).find?
        (fun p => p.1 == n)).map (fun p => p.2) =
      if (l.find? (fun p => p.1 == n)).isSome then some v else none := by
  induction l with
  | nil => simp
  | cons p l ih =>
    by_cases h : p.1 == n
    · simp [List.find?, h]
    · simp only [List.map_cons, List.find?, h, if_neg, Bool.false_eq_true,
        not_false_eq_true, if_false]
      simpa [h] using ih

lemma find_append_single (l : List (String × String)) (n v : String)
    (h : l.find? (fun p => p.1 == n) = none) :
    ((l ++ [(n, v)]).find? (fun p => p.1 == n)).map (fun p => p.2) = some v := by
  induction l with
  | nil => simp [List.find?]
  | cons p l ih =>
    simp only [List.find?] at h ⊢
    cases hp : (p.1 == n) with
    | true => simp [hp] at h
    | false =>
      simp only [hp] at h ⊢
      exact ih h

lemma getAttr_setAttr_self (e : Elem) (n v : String) :
    getAttr (setAttr e n v) n = some v := by
  unfold getAttr setAttr
  by_cases h : (e.attrs.find? (fun p => p.1 == n)).isSome
  · simp only [h, if_true]
    simpa [h] using find_map_overwrite e.attrs n v
  · simp only [h, if_false, Bool.false_eq_true]
    have hn : e.attrs.find? (fun p => p.1 == n) = none := by
      cases hf : e.attrs.find? (fun p => p.1 == n) with
      | none => rfl
      | some p => rw [hf] at h; simp at h
    exact find_append_single e.attrs n v hn

lemma find_filter_ne (l : List (String × String)) (n m : String) (hnm : m ≠ n) :
    (l.filter (fun p => !(p.1 == n))).find? (fun p => p.1 == m) =
      l.find? (fun p => p.1 == m) := by
  induction l with
  | nil => simp
  | cons p l ih =>
    rw [List.filter_cons]
    by_cases hn : (p.1 == n) = true
    · have hm : (p.1 == m) = false := by
        have hpn : p.1 = n := eq_of_beq hn
        rw [hpn, beq_eq_false_iff_ne]
        exact fun hEq => hnm hEq.symm
      rw [hn]
      simp only [Bool.not_true, if_false, Bool.false_eq_true]
      rw [List.find?, hm, ih]
    · have hn' : (p.1 == n) = false := by
        cases h : (p.1 == n) with
        | true => exact absurd h hn
        | false => rfl
      rw [hn']
      simp only [Bool.not_false, if_true]
      cases hm : (p.1 == m) with
      | true => rw [List.find?, List.find?, hm]
      | false => rw [List.find?, List.find?, hm, ih]

lemma getAttr_removeAttr_ne (e : Elem) (n m : String) (h : m ≠ n) :
    getAttr (removeAttr e n) m = getAttr e m := by
  unfold getAttr removeAttr
  rw [find_filter_ne e.attrs n m h]

lemma find_filter_self (l : List (String × String)) (n : String) :
    (l.filter (fun p => !(p.1 == n))).find? (fun p => p.1 == n) = none := by
  induction l with
  | nil => simp
  | cons p l ih =>
    rw [List.filter_cons]
    cases hn : (p.1 == n) with
    | true =>
      simp only [hn, Bool.not_true, if_false, Bool.false_eq_true]
      exact ih
    | false =>
      simp only [hn, Bool.not_false, if_true]
      rw [List.find?, hn, ih]

lemma getAttr_removeAttr_self (e : Elem) (n : String) :
    getAttr (removeAttr e n) n = none := by
  unfold getAttr removeAttr
  rw [find_filter_self e.attrs n]
  rfl

lemma src_setAttr (e : Elem) (n v : String) : (setAttr e n v).src = e.src := by
  unfold setAttr
  split <;> rfl

lemma src_removeAttr (e : Elem) (n : String) : (removeAttr e n).src = e.src := rfl

lemma getD_modifyIdx_self (f : Elem → Elem) (i : Nat) (l : List Elem) (d : Elem)
    (h : i < l.length) :
    (modifyIdx f i l).getD i d = f (l.getD i d) := by
  induction l generalizing i with
  | nil => simp at h
  | cons e l ih =>
    cases i with
    | zero => rfl
    | succ n =>
      simp only [modifyIdx, List.getD_cons_succ]
      exact ih n (by simpa using h)

lemma handleFE_calls (es : List Entry) (s : ExecObsState) :
    (handleFunctionExecution es s).calls =
      s.calls + es.countP (fun e => e.isIntersecting) := by
  induction es generalizing s with
  | nil => simp [handleFunctionExecution]
  | cons e es ih =>
    rw [handleFunctionExecution, List.foldl_cons,
      ← handleFunctionExecution, ih, List.countP_cons]
    unfold handleFunctionExecutionStep
    cases h : e.isIntersecting with
    | true => simp [h]; omega
    | false => simp [h]

lemma handleFE_observed_subset (es : List Entry) (s : ExecObsState) :
    ∀ x, x ∈ (handleFunctionExecution es s).observed → x ∈ s.observed := by
  induction es generalizing s with
  | nil => intro x hx; simpa [handleFunctionExecution] using hx
  | cons e es ih =>
    intro x hx
    rw [handleFunctionExecution, List.foldl_cons, ← handleFunctionExecution] at hx
    have hx2 := ih (handleFunctionExecutionStep s e) x hx
    unfold handleFunctionExecutionStep at hx2
    cases h : e.isIntersecting with
    | true =>
      rw [h] at hx2
      simp only [if_true] at hx2
      exact (List.mem_filter.mp hx2).1
    | false => rw [h] at hx2; simpa using hx2

lemma handleFE_removed (es : List Entry) (s : ExecObsState) (e : Entry)
    (he : e ∈ es) (hi : e.isIntersecting = true) :
    e.target ∉ (handleFunctionExecution es s).observed := by
  induction es generalizing s with
  | nil => cases he
  | cons a es ih =>
    rw [handleFunctionExecution, List.foldl_cons, ← handleFunctionExecution]
    rcases List.mem_cons.mp he with rfl | hmem
    · intro hx
      have hx2 := handleFE_observed_subset es (handleFunctionExecutionStep s e) _ hx
      unfold handleFunctionExecutionStep at hx2
      rw [hi] at hx2
      simp only [if_true] at hx2
      have := (List.mem_filter.mp hx2).2
      simp at this
    · exact ih _ hmem

lemma renderMedia_cons (attr : JSVal) (e : Entry) (es : List Entry) (st : ObsState) :
    renderMedia attr (e :: es) st =
      (renderMediaStep attr st e).bind (renderMedia attr es) := by
  unfold renderMedia
  rw [List.foldlM_cons]
  cases h : renderMediaStep attr st e with
  | error err => rfl
  | ok st1 => rfl

/-! ## Claim theorems -/

/-- C3.  Configuration validation with an absent root fails with
`InvalidConfig` exactly when the margin (`loadBefore`) is absent
(`null`/`undefined`), not numeric, or negative, or the threshold
(`loadAfter`) is absent, not numeric, or outside `[0, 1]`; it succeeds
otherwise, and on success the produced configuration renders `rootMargin`
as the single padding value `"<margin>px"` and passes `threshold` through
unchanged. -/
theorem config_validation_iff (m t : JSVal) :
    (isInvalidConfig (configCheck JSVal.null m t) = true ↔
      (m.isNull = true ∨ m.isUndef = true ∨ m.isNumber = false ∨ m.asNum < 0) ∨
      (t.isNull = true ∨ t.isUndef = true ∨ t.isNumber = false ∨
        t.asNum < 0 ∨ 1 < t.asNum)) ∧
    ((∃ o, configCheck JSVal.null m t = Except.ok o) ↔
      ¬ ((m.isNull = true ∨ m.isUndef = true ∨ m.isNumber = false ∨ m.asNum < 0) ∨
        (t.isNull = true ∨ t.isUndef = true ∨ t.isNumber = false ∨
          t.asNum < 0 ∨ 1 < t.asNum))) ∧
    (∀ o, configCheck JSVal.null m t = Except.ok o →
      o.root = JSVal.null ∧ o.rootMargin = jsNumToString m.asNum ++ "px" ∧
        o.threshold = t) := by
  have hroot : (if !(JSVal.null.isNull) then validDOMElement JSVal.null else true)
      = true := rfl
  unfold configCheck
  rw [hroot]
  rw [if_neg (by simp : ¬ (true = false))]
  by_cases hm : (m.isNull || m.isUndef || !m.isNumber || decide (m.asNum < 0)) = true
  · have hm2 : (m.isNull = true ∨ m.isUndef = true ∨ m.isNumber = false ∨ m.asNum < 0) := by
      simpa [or_assoc] using hm
    rw [if_pos hm]
    refine ⟨?_, ?_, ?_⟩
    · exact ⟨fun _ => Or.inl hm2, fun _ => rfl⟩
    · constructor
      · rintro ⟨o, ho⟩; cases ho
      · intro h; exact absurd (Or.inl hm2) h
    · intro o ho; cases ho
  · have hm2 : ¬ (m.isNull = true ∨ m.isUndef = true ∨ m.isNumber = false ∨ m.asNum < 0) := by
      intro h
      apply hm
      rcases h with h | h | h | h <;> simp [h]
    rw [if_neg hm]
    by_cases ht : (t.isNull || t.isUndef || !t.isNumber ||
        decide (t.asNum < 0) || decide (1 < t.asNum)) = true
    · have ht2 : (t.isNull = true ∨ t.isUndef = true ∨ t.isNumber = false ∨
          t.asNum < 0 ∨ 1 < t.asNum) := by
        simpa [or_assoc] using ht
      rw [if_pos ht]
      refine ⟨?_, ?_, ?_⟩
      · exact ⟨fun _ => Or.inr ht2, fun _ => rfl⟩
      · constructor
        · rintro ⟨o, ho⟩; cases ho
        · intro h; exact absurd (Or.inr ht2) h
      · intro o ho; cases ho
    · have ht2 : ¬ (t.isNull = true ∨ t.isUndef = true ∨ t.isNumber = false ∨
          t.asNum < 0 ∨ 1 < t.asNum) := by
        intro h
        apply ht
        rcases h with h | h | h | h | h <;> simp [h]
      rw [if_neg ht]
      refine ⟨?_, ?_, ?_⟩
      · constructor
        · intro h; simp [isInvalidConfig] at h
        · intro h; exact absurd h (not_or.mpr ⟨hm2, ht2⟩)
      · constructor
        · intro _; exact not_or.mpr ⟨hm2, ht2⟩
        · intro _; exact ⟨_, rfl⟩
      · intro o ho
        cases ho
        exact ⟨rfl, rfl, rfl⟩

/-- C3 witness: margin `5`, threshold `0.5` validate successfully and
yield `rootMargin = "5px"` with the threshold passed through. -/
theorem config_validation_iff_witness :
    ∃ o, configCheck JSVal.null (JSVal.num 5) (JSVal.num (1/2)) = Except.ok o ∧
      o.root = JSVal.null ∧ o.rootMargin = "5px" ∧ o.threshold = JSVal.num (1/2) := by
  have h := config_validation_iff (JSVal.num 5) (JSVal.num (1/2))
  obtain ⟨o, ho⟩ := h.2.1.mpr (by
    intro hc
    rcases hc with hc | hc <;>
      rcases hc with hc | hc | hc | hc <;> first
        | exact absurd hc (by decide)
        | rcases hc with hc | hc <;> exact absurd hc (by norm_num [JSVal.asNum]))
  obtain ⟨h1, h2, h3⟩ := h.2.2 o ho
  exact ⟨o, ho, h1, by simpa [jsNumToString] using h2, h3⟩

/-- C4.  The code's own documentation (and the spec's data model) admit an
array threshold, but the validation's `typeof loadAfter` test rejects
every array — here evaluated at the failing input `loadAfter = [0.5]`,
and shown in general for any array whatsoever. -/
theorem config_rejects_array_threshold :
    configCheck JSVal.null (JSVal.num 0) (JSVal.arr [JSVal.num (1/2)]) =
      Except.error (JSError.invalidConfig msgLoadAfter) ∧
    ∀ xs : List JSVal, configCheck JSVal.null (JSVal.num 0) (JSVal.arr xs) =
      Except.error (JSError.invalidConfig msgLoadAfter) := by
  exact ⟨rfl, fun xs => rfl⟩

/-- C1.  For every media target whose notification reports it
intersecting and whose transient locator is present: with an attribute
name supplied that attribute receives the locator, otherwise the default
source property does; the transient `data-lazy-url` datum is cleared and
the target is deregistered from the observer (so the action cannot recur
for it); and in the two-element scenario with
`lazyUrls = ["a.jpg", "b.jpg"]`, locator `i` is assigned to and then
applied on element `i`, the transient attribute being absent afterward. -/
theorem media_locator_applied_once :
    (∀ (attr : JSVal) (st : ObsState) (entry : Entry) (s : String),
      entry.isIntersecting = true →
      entry.target < st.dom.length →
      lazyUrlOrNull (st.dom.getD entry.target default) = some s →
      (attr = JSVal.null ∨
        ∃ a : String, attr = JSVal.str a ∧ a ≠ "" ∧ a ≠ "data-lazy-url") →
      ∃ st2, renderMediaStep attr st entry = Except.ok st2 ∧
        (∀ a : String, attr = JSVal.str a →
          getAttr (st2.dom.getD entry.target default) a = some s) ∧
        (attr = JSVal.null → (st2.dom.getD entry.target default).src = some s) ∧
        getAttr (st2.dom.getD entry.target default) "data-lazy-url" = none ∧
        entry.target ∉ st2.observed) ∧
    (∃ st1 dom1,
      media initLazyState [blankElem, blankElem] envTwo JSVal.null (JSVal.str "img")
          JSVal.null (JSVal.arr [JSVal.str "a.jpg", JSVal.str "b.jpg"])
          defaultOptionsObj = Except.ok (st1, dom1) ∧
      getAttr (dom1.getD 0 default) "data-lazy-url" = some "a.jpg" ∧
      getAttr (dom1.getD 1 default) "data-lazy-url" = some "b.jpg" ∧
      st1.observedTargets = [0, 1] ∧
      ∃ st2, renderMedia JSVal.null [⟨0, true⟩, ⟨1, true⟩]
          ⟨dom1, st1.observedTargets⟩ = Except.ok st2 ∧
        (st2.dom.getD 0 default).src = some "a.jpg" ∧
        (st2.dom.getD 1 default).src = some "b.jpg" ∧
        getAttr (st2.dom.getD 0 default) "data-lazy-url" = none ∧
        getAttr (st2.dom.getD 1 default) "data-lazy-url" = none ∧
        st2.observed = []) := by
  constructor
  · intro attr st entry s hi hlt hurl hattr
    unfold renderMediaStep
    rw [if_pos hi]
    simp only [hurl]
    refine ⟨_, rfl, ?_, ?_, ?_, ?_⟩
    · intro a ha
      rcases hattr with rfl | ⟨a0, rfl, ha1, ha2⟩
      · cases ha
      · cases ha
        have htr : (JSVal.str a).truthy = true := by
          simp [JSVal.truthy, ha1]
        rw [getD_modifyIdx_self _ _ _ _ hlt, if_pos htr,
          getAttr_removeAttr_ne _ _ _ ha2]
        exact getAttr_setAttr_self _ _ _
    · intro ha
      subst ha
      have htr : ¬ (JSVal.null.truthy = true) := by simp [JSVal.truthy]
      rw [getD_modifyIdx_self _ _ _ _ hlt, if_neg htr, src_removeAttr]
    · rw [getD_modifyIdx_self _ _ _ _ hlt]
      exact getAttr_removeAttr_self _ _
    · intro hmem
      have := (List.mem_filter.mp hmem).2
      simp at this
  · refine ⟨_, _, rfl, rfl, rfl, rfl, _, rfl, rfl, rfl, rfl, rfl, rfl⟩

/-- C1 witness: a single registered element carrying locator `"u.jpg"`,
with `attr = "data-src"`, processed on an intersecting record. -/
theorem media_locator_applied_once_witness :
    ∃ st2, renderMediaStep (JSVal.str "data-src")
        ⟨[setAttr blankElem "data-lazy-url" "u.jpg"], [0]⟩ ⟨0, true⟩ =
          Except.ok st2 ∧
      getAttr (st2.dom.getD 0 default) "data-src" = some "u.jpg" ∧
      getAttr (st2.dom.getD 0 default) "data-lazy-url" = none ∧
      0 ∉ st2.observed := by
  obtain ⟨st2, h1, h2, _, h4, h5⟩ := (media_locator_applied_once).1
    (JSVal.str "data-src") ⟨[setAttr blankElem "data-lazy-url" "u.jpg"], [0]⟩
    ⟨0, true⟩ "u.jpg" rfl (by decide) rfl
    (Or.inr ⟨"data-src", rfl, by decide, by decide⟩)
  exact ⟨st2, h1, h2 "data-src" rfl, h4, h5⟩

/-- C2 counterexample: a single delivered batch may carry several
records for the same target (visibility toggling between delivery
turns); the handler has no per-batch guard, so a registered `execute`
target reported intersecting, then not, then intersecting again within
one batch invokes the callback twice — not exactly once. -/
theorem execute_double_invocation_counterexample :
    ∃ st1, execute initLazyState (JSVal.node 3 1 true) JSVal.func defaultOptionsObj =
        Except.ok st1 ∧
      st1.observedTargets = [3] ∧
      (handleFunctionExecution [⟨3, true⟩, ⟨3, false⟩, ⟨3, true⟩]
        ⟨st1.observedTargets, 0⟩).calls = 2 :=
  ⟨_, rfl, rfl, rfl⟩

/-- C2 (amended).  `execute` with a valid element and callback registers
exactly that target; the handler invokes the callback once per
intersecting record it processes and deregisters the target
synchronously within the same handling turn — hence with a single
intersecting record in the first batch the callback fires exactly once,
and a consecutive batch, drawn from the post-turn registration list that
no longer holds the target, causes no additional invocation; but further
intersecting records for the target within the same delivered batch each
invoke the callback again. -/
theorem execute_callback_exactly_once (st : LazyState) (i : Nat) (b1 b2 : List Entry)
    (h1 : ∀ e ∈ b1, e.target = i)
    (h2 : b1.countP (fun e => e.isIntersecting) = 1)
    (h3 : ∀ e ∈ b2, e.target ∈ (handleFunctionExecution b1 ⟨[i], 0⟩).observed) :
    (∃ st1, execute st (JSVal.node i 1 true) JSVal.func defaultOptionsObj =
        Except.ok st1 ∧ st1.observedTargets = [i]) ∧
    (handleFunctionExecution b1 ⟨[i], 0⟩).calls = 1 ∧
    i ∉ (handleFunctionExecution b1 ⟨[i], 0⟩).observed ∧
    handleFunctionExecution b2 (handleFunctionExecution b1 ⟨[i], 0⟩) =
      handleFunctionExecution b1 ⟨[i], 0⟩ ∧
    (∀ (b : List Entry) (s : ExecObsState),
      (handleFunctionExecution b s).calls =
        s.calls + b.countP (fun e => e.isIntersecting)) := by
  have hcalls : (handleFunctionExecution b1 ⟨[i], 0⟩).calls = 1 := by
    rw [handleFE_calls]
    simpa using h2
  have hex : ∃ e ∈ b1, e.isIntersecting = true := by
    have hpos : 0 < b1.countP (fun e => e.isIntersecting) := by
      rw [h2]
      exact Nat.one_pos
    simpa using List.countP_pos_iff.mp hpos
  obtain ⟨e, he, hei⟩ := hex
  have hrem : i ∉ (handleFunctionExecution b1 ⟨[i], 0⟩).observed := by
    have h := handleFE_removed b1 ⟨[i], 0⟩ e he hei
    rwa [h1 e he] at h
  have hobs : (handleFunctionExecution b1 ⟨[i], 0⟩).observed = [] := by
    cases hcase : (handleFunctionExecution b1 ⟨[i], 0⟩).observed with
    | nil => rfl
    | cons x xs =>
      have hx := handleFE_observed_subset b1 ⟨[i], 0⟩ x
        (by rw [hcase]; exact List.mem_cons_self x xs)
      have hxi : x = i := by simpa using hx
      subst hxi
      exact absurd (by rw [hcase]; exact List.mem_cons_self x xs) hrem
  have hb2 : b2 = [] := by
    cases b2 with
    | nil => rfl
    | cons e2 es2 =>
      have h := h3 e2 (List.mem_cons_self e2 es2)
      rw [hobs] at h
      cases h
  refine ⟨⟨_, rfl, rfl⟩, hcalls, hrem, ?_, fun b s => handleFE_calls b s⟩
  rw [hb2]
  rfl

/-- C2 witness: target id `3`, first batch a single intersecting record,
consecutive batch empty (the target is no longer registered). -/
theorem execute_callback_exactly_once_witness :
    (∃ st1, execute initLazyState (JSVal.node 3 1 true) JSVal.func defaultOptionsObj =
        Except.ok st1 ∧ st1.observedTargets = [3]) ∧
    (handleFunctionExecution [⟨3, true⟩] ⟨[3], 0⟩).calls = 1 ∧
    3 ∉ (handleFunctionExecution [⟨3, true⟩] ⟨[3], 0⟩).observed ∧
    handleFunctionExecution [] (handleFunctionExecution [⟨3, true⟩] ⟨[3], 0⟩) =
      handleFunctionExecution [⟨3, true⟩] ⟨[3], 0⟩ ∧
    (handleFunctionExecution [⟨3, true⟩] ⟨[3], 0⟩).calls =
      (⟨[3], 0⟩ : ExecObsState).calls +
        List.countP (fun e => e.isIntersecting) ([⟨3, true⟩] : List Entry) := by
  have h := execute_callback_exactly_once initLazyState 3 [⟨3, true⟩] []
    (by decide) (by decide) (by decide)
  exact ⟨h.1, h.2.1, h.2.2.1, h.2.2.2.1, h.2.2.2.2 [⟨3, true⟩] ⟨[3], 0⟩⟩

/-- C5 counterexample: a `media` call with `srcTarget` absent (`null`)
does not fail — validation is skipped for `null` (the code's own error
message reads "or null") and the call completes, registering nothing. -/
theorem media_null_srcTarget_accepted :
    media initLazyState [] envNone JSVal.null JSVal.null JSVal.null (JSVal.arr [])
        defaultOptionsObj =
      Except.ok ({ options := initialOptions, observer := some 0, nextGen := 1,
                   observedTargets := [] }, []) := rfl

/-- C5 (amended).  When `srcTarget` is supplied non-`null` and is not a
string satisfying the selector-validity predicate, `media` fails with
`InvalidArgument` synchronously, before any state change or
registration; a `null` `srcTarget` instead skips selector validation. -/
theorem media_invalid_srcTarget_rejected (st : LazyState) (dom : List Elem)
    (env : DOMEnv) (wrapper srcTarget attr lazyUrls : JSVal) (options : OptionsObj)
    (hw : wrapper.isNull = true ∨ validDOMElement wrapper = true)
    (hs : srcTarget.isNull = false)
    (hbad : srcTarget.isString = false ∨ validCSSSelector env srcTarget = false) :
    media st dom env wrapper srcTarget attr lazyUrls options =
      Except.error (JSError.invalidArgument msgSrcTarget, st, dom) := by
  unfold media
  rw [if_neg (by rcases hw with h | h <;> simp [h])]
  rw [if_pos (by rcases hbad with h | h <;> simp [hs, h])]

/-- C5 witness: a numeric `srcTarget` is rejected with `InvalidArgument`
and the state is untouched. -/
theorem media_invalid_srcTarget_rejected_witness :
    media initLazyState [] envNone JSVal.null (JSVal.num 3) JSVal.null (JSVal.arr [])
        defaultOptionsObj =
      Except.error (JSError.invalidArgument msgSrcTarget, initLazyState, []) :=
  media_invalid_srcTarget_rejected initLazyState [] envNone JSVal.null (JSVal.num 3)
    JSVal.null (JSVal.arr []) defaultOptionsObj (Or.inl rfl) rfl (Or.inl rfl)

/-- C6 counterexample: in a batch of two intersecting records where the
first element lacks its locator, the handler aborts at the throw — the
second record, which on its own would succeed and assign the source, is
left unprocessed (its element unchanged and still observed). -/
theorem renderMedia_batch_abort_counterexample :
    renderMedia JSVal.null [⟨0, true⟩, ⟨1, true⟩]
        ⟨[blankElem, setAttr blankElem "data-lazy-url" "b.jpg"], [0, 1]⟩ =
      Except.error (JSError.missingResourceLocator msgMissingLazyUrl,
        ⟨[blankElem, setAttr blankElem "data-lazy-url" "b.jpg"], [0, 1]⟩) ∧
    (∃ st2, renderMediaStep JSVal.null
        ⟨[blankElem, setAttr blankElem "data-lazy-url" "b.jpg"], [0, 1]⟩ ⟨1, true⟩ =
          Except.ok st2 ∧ (st2.dom.getD 1 default).src = some "b.jpg") :=
  ⟨rfl, _, rfl, rfl⟩

/-- C6 (amended).  The handler processes the delivered records in order,
but an error raised while handling a record propagates out of the loop:
the remaining records of the batch are not processed. -/
theorem renderMedia_in_order_until_error (attr : JSVal) (st : ObsState) (e : Entry)
    (es : List Entry) :
    renderMedia attr [] st = Except.ok st ∧
    (∀ err, renderMediaStep attr st e = Except.error err →
      renderMedia attr (e :: es) st = Except.error err) ∧
    (∀ st1, renderMediaStep attr st e = Except.ok st1 →
      renderMedia attr (e :: es) st = renderMedia attr es st1) := by
  refine ⟨rfl, ?_, ?_⟩
  · intro err herr
    rw [renderMedia_cons, herr]
    rfl
  · intro st1 hok
    rw [renderMedia_cons, hok]
    rfl

/-- C6 witness: an erroring head record makes the batch return that
error; a successful head record continues with the batch tail. -/
theorem renderMedia_in_order_until_error_witness :
    renderMedia JSVal.null [⟨0, true⟩] ⟨[blankElem], [0]⟩ =
      Except.error (JSError.missingResourceLocator msgMissingLazyUrl,
        ⟨[blankElem], [0]⟩) ∧
    renderMedia JSVal.null [⟨0, false⟩] ⟨[], []⟩ = renderMedia JSVal.null [] ⟨[], []⟩ :=
  ⟨(renderMedia_in_order_until_error JSVal.null ⟨[blankElem], [0]⟩ ⟨0, true⟩ []).2.1
      _ rfl,
   (renderMedia_in_order_until_error JSVal.null ⟨[], []⟩ ⟨0, false⟩ []).2.2 _ rfl⟩

/-- C7 counterexample: with no resolved elements and
`lazyUrls = ["a", 42]`, the out-of-range write on the string at index 0
raises the untyped runtime failure before the string check ever reaches
the non-string at index 1 — the call fails, but not with
`InvalidArgument`. -/
theorem media_nonstring_locator_typeerror_counterexample :
    media initLazyState [] envNone (JSVal.node 5 1 true) (JSVal.str "x") JSVal.null
        (JSVal.arr [JSVal.str "a", JSVal.num 42]) defaultOptionsObj =
      Except.error (JSError.typeError msgUndefinedIndex,
        { options := initialOptions, observer := some 0, nextGen := 1,
          observedTargets := [] },
        []) ∧
    ∀ m, JSError.typeError msgUndefinedIndex ≠ JSError.invalidArgument m :=
  ⟨rfl, fun _ h => JSError.noConfusion h⟩

/-- C7 (amended).  A non-string locator makes the `media` call fail with
`InvalidArgument` provided every earlier locator lies within the resolved
element range (otherwise the out-of-range failure preempts it); in either
case the error propagates out of `media` with no element registered with
the freshly created observer. -/
theorem media_nonstring_locator_rejected :
    (∀ (urls : List JSVal) (ids : List Nat) (dom : List Elem) (j : Nat),
      j < urls.length →
      (urls.getD j JSVal.null).isString = false →
      (∀ i, i < j → (urls.getD i JSVal.null).isString = true) →
      j ≤ ids.length →
      ∃ dom1, assignLazyUrls urls ids dom =
        Except.error (JSError.invalidArgument msgImgPath, dom1)) ∧
    (∀ (st : LazyState) (dom : List Elem) (env : DOMEnv)
        (wrapper srcTarget attr lazyUrls : JSVal) (err : JSError) (dom1 : List Elem),
      (wrapper.isNull = true ∨ validDOMElement wrapper = true) →
      (srcTarget.isNull = true ∨
        (srcTarget.isString = true ∧ validCSSSelector env srcTarget = true)) →
      (attr.isNull = true ∨ (attr.isUndef = false ∧ attr.isString = true)) →
      assignLazyUrls (if lazyUrls.isArray then lazyUrls.asArray else [])
        (env.querySelectorAll (if wrapper.truthy then wrapper else JSVal.null) srcTarget)
        dom = Except.error (err, dom1) →
      media st dom env wrapper srcTarget attr lazyUrls defaultOptionsObj =
        Except.error (err,
          { options := st.options, observer := some st.nextGen,
            nextGen := st.nextGen + 1, observedTargets := [] }, dom1)) := by
  constructor
  · intro urls
    induction urls with
    | nil =>
      intro ids dom j hj _ _ _
      exact absurd hj (by simp)
    | cons u urls ih =>
      intro ids dom j hj hbad hgood hle
      cases j with
      | zero =>
        refine ⟨dom, ?_⟩
        have hu : u.isString = false := by simpa using hbad
        simp [assignLazyUrls, hu]
      | succ j2 =>
        have hu : u.isString = true := by simpa using hgood 0 (Nat.succ_pos j2)
        cases ids with
        | nil => simp at hle
        | cons id ids2 =>
          have step : assignLazyUrls (u :: urls) (id :: ids2) dom =
              assignLazyUrls urls ids2
                (modifyIdx (fun e => setAttr e "data-lazy-url" u.asString) id dom) := by
            simp [assignLazyUrls, hu]
          rw [step]
          refine ih ids2 _ j2 (by simpa using hj) (by simpa using hbad) ?_
            (by simpa using hle)
          intro i hi
          have h := hgood (i + 1) (by omega)
          simpa using h
  · intro st dom env wrapper srcTarget attr lazyUrls err dom1 hw hsrc hattr hassign
    unfold media
    rw [if_neg (by rcases hw with h | h <;> simp [h])]
    rw [if_neg (by
      rcases hsrc with h | ⟨h1, h2⟩
      · simp [h]
      · simp [h1, h2])]
    rw [if_neg (by
      rcases hattr with h | ⟨h1, h2⟩
      · simp [h]
      · simp [h1, h2])]
    rw [if_neg (by decide : ¬ (nonDefaultOptions defaultOptionsObj = true))]
    simp only [hassign]

/-- C7 witness: `lazyUrls = [7]` (non-string first) yields
`InvalidArgument` at the assignment level, and through a full `media`
call with one such locator and no resolved element conflict. -/
theorem media_nonstring_locator_rejected_witness :
    (∃ dom1, assignLazyUrls [JSVal.num 7] [] [] =
      Except.error (JSError.invalidArgument msgImgPath, dom1)) ∧
    media initLazyState [] envNone JSVal.null (JSVal.str "x") JSVal.null
        (JSVal.arr [JSVal.num 7]) defaultOptionsObj =
      Except.error (JSError.invalidArgument msgImgPath,
        { options := initialOptions, observer := some 0, nextGen := 1,
          observedTargets := [] }, []) :=
  ⟨media_nonstring_locator_rejected.1 [JSVal.num 7] [] [] 0 (by decide) (by decide)
      (fun _ hi => absurd hi (Nat.not_lt_zero _)) (by decide),
   media_nonstring_locator_rejected.2 initLazyState [] envNone JSVal.null
      (JSVal.str "x") JSVal.null (JSVal.arr [JSVal.num 7])
      (JSError.invalidArgument msgImgPath) [] (Or.inl rfl) (Or.inr ⟨rfl, rfl⟩)
      (Or.inl rfl) rfl⟩

/-- C8 counterexample: two consecutive `execute` calls with all-default
observer options keep the stored configuration identical, yet the
observer handle is replaced on the second call — contradicting the
claim's "no redundant observer replacement occurs". -/
theorem default_options_observer_replaced_counterexample :
    ∃ st1 st2,
      execute initLazyState (JSVal.node 3 1 true) JSVal.func defaultOptionsObj =
        Except.ok st1 ∧
      execute st1 (JSVal.node 3 1 true) JSVal.func defaultOptionsObj =
        Except.ok st2 ∧
      st2.options = st1.options ∧ st2.observer ≠ st1.observer := by
  refine ⟨_, _, rfl, rfl, rfl, ?_⟩
  decide

/-- C8 (amended).  A `media` or `execute` call with the all-defaults
sentinel preserves the previously validated configuration without
re-validating it, but still replaces the observer handle with a fresh
one; the stored configuration is replaced (with a freshly validated one)
only when a caller-supplied option differs from the sentinel. -/
theorem default_options_config_preserved :
    (∀ (st : LazyState) (dom : List Elem) (env : DOMEnv)
        (wrapper srcTarget attr lazyUrls : JSVal),
      (match media st dom env wrapper srcTarget attr lazyUrls defaultOptionsObj with
        | .ok (st1, _) => st1.options = st.options ∧ st1.observer = some st.nextGen
        | .error (_, st1, _) => st1.options = st.options)) ∧
    (∀ (st : LazyState) (viewportEntry exeFn : JSVal),
      (match execute st viewportEntry exeFn defaultOptionsObj with
        | .ok st1 => st1.options = st.options ∧ st1.observer = some st.nextGen
        | .error (_, st1) => st1.options = st.options)) ∧
    (∀ (st : LazyState) (viewportEntry exeFn : JSVal) (options : OptionsObj)
        (st1 : LazyState),
      nonDefaultOptions options = true →
      execute st viewportEntry exeFn options = Except.ok st1 →
      configMethod options.root options.loadBefore options.loadAfter =
        Except.ok st1.options) := by
  refine ⟨?_, ?_, ?_⟩
  · intro st dom env wrapper srcTarget attr lazyUrls
    unfold media
    by_cases h1 : (!wrapper.isNull && !validDOMElement wrapper) = true
    · rw [if_pos h1]
    · rw [if_neg h1]
      by_cases h2 : (!srcTarget.isNull &&
          (!srcTarget.isString || !validCSSSelector env srcTarget)) = true
      · rw [if_pos h2]
      · rw [if_neg h2]
        by_cases h3 : (!attr.isNull && (attr.isUndef || !attr.isString)) = true
        · rw [if_pos h3]
        · rw [if_neg h3]
          rw [if_neg (by decide : ¬ (nonDefaultOptions defaultOptionsObj = true))]
          cases hassign : assignLazyUrls
              (if lazyUrls.isArray then lazyUrls.asArray else [])
              (env.querySelectorAll (if wrapper.truthy then wrapper else JSVal.null)
                srcTarget) dom with
          | error p =>
            obtain ⟨e, dom1⟩ := p
            simp only [hassign]
          | ok dom1 =>
            simp only [hassign]
            exact ⟨trivial, trivial⟩
  · intro st viewportEntry exeFn
    unfold execute
    by_cases h1 : validDOMElement viewportEntry = false
    · rw [if_pos h1]
    · rw [if_neg h1]
      by_cases h2 : JSVal.isFunction exeFn = false
      · rw [if_pos h2]
      · rw [if_neg h2]
        rw [if_neg (by decide : ¬ (nonDefaultOptions defaultOptionsObj = true))]
        exact ⟨rfl, rfl⟩
  · intro st viewportEntry exeFn options st1 hnd hok
    unfold execute at hok
    by_cases h1 : validDOMElement viewportEntry = false
    · rw [if_pos h1] at hok
      cases hok
    · rw [if_neg h1] at hok
      by_cases h2 : JSVal.isFunction exeFn = false
      · rw [if_pos h2] at hok
        cases hok
      · rw [if_neg h2] at hok
        rw [if_pos hnd] at hok
        cases hc : configMethod options.root options.loadBefore options.loadAfter with
        | error e =>
          rw [hc] at hok
          cases hok
        | ok o =>
          rw [hc] at hok
          cases hok
          rfl

/-- C8 witness: the preserved-configuration cases at concrete inputs,
and a reconfiguring `execute` call with `loadBefore = 10`. -/
theorem default_options_config_preserved_witness :
    (match media initLazyState [] envNone JSVal.null JSVal.null JSVal.null
        (JSVal.arr []) defaultOptionsObj with
      | .ok (st1, _) => st1.options = initLazyState.options ∧
          st1.observer = some initLazyState.nextGen
      | .error (_, st1, _) => st1.options = initLazyState.options) ∧
    (match execute initLazyState (JSVal.node 3 1 true) JSVal.func defaultOptionsObj with
      | .ok st1 => st1.options = initLazyState.options ∧
          st1.observer = some initLazyState.nextGen
      | .error (_, st1) => st1.options = initLazyState.options) ∧
    (∀ st1, execute initLazyState (JSVal.node 3 1 true) JSVal.func
        { root := JSVal.null, loadBefore := JSVal.num 10, loadAfter := JSVal.num 0 } =
          Except.ok st1 →
      configMethod JSVal.null (JSVal.num 10) (JSVal.num 0) = Except.ok st1.options) :=
  ⟨default_options_config_preserved.1 initLazyState [] envNone JSVal.null JSVal.null
      JSVal.null (JSVal.arr []),
   default_options_config_preserved.2.1 initLazyState (JSVal.node 3 1 true) JSVal.func,
   fun st1 hok => default_options_config_preserved.2.2 initLazyState
      (JSVal.node 3 1 true) JSVal.func
      { root := JSVal.null, loadBefore := JSVal.num 10, loadAfter := JSVal.num 0 }
      st1 (by decide) hok⟩

/-- C9.  An empty-string locator passes `media`'s string check (the call
succeeds and stores it as the transient datum), but at notification time
the `|| null` read treats the empty string as absent, so the handler
raises `MissingResourceLocator` instead of applying it. -/
theorem empty_locator_missing_resource :
    (∀ (attr : JSVal) (st : ObsState) (entry : Entry),
      entry.isIntersecting = true →
      getAttr (st.dom.getD entry.target default) "data-lazy-url" = some "" →
      renderMediaStep attr st entry =
        Except.error (JSError.missingResourceLocator msgMissingLazyUrl, st)) ∧
    (∃ st1 dom1, media initLazyState [blankElem] envOne JSVal.null (JSVal.str "img")
        JSVal.null (JSVal.arr [JSVal.str ""]) defaultOptionsObj =
          Except.ok (st1, dom1) ∧
      getAttr (dom1.getD 0 default) "data-lazy-url" = some "" ∧
      st1.observedTargets = [0]) := by
  constructor
  · intro attr st entry hi hattr
    unfold renderMediaStep
    rw [if_pos hi]
    have hnone : lazyUrlOrNull (st.dom.getD entry.target default) = none := by
      unfold lazyUrlOrNull
      rw [hattr]
      rfl
    simp only [hnone]
  · exact ⟨_, _, rfl, rfl, rfl⟩

/-- C9 witness: one element carrying the empty-string locator, reported
intersecting. -/
theorem empty_locator_missing_resource_witness :
    renderMediaStep JSVal.null ⟨[setAttr blankElem "data-lazy-url" ""], [0]⟩
        ⟨0, true⟩ =
      Except.error (JSError.missingResourceLocator msgMissingLazyUrl,
        ⟨[setAttr blankElem "data-lazy-url" ""], [0]⟩) :=
  empty_locator_missing_resource.1 JSVal.null
    ⟨[setAttr blankElem "data-lazy-url" ""], [0]⟩ ⟨0, true⟩ rfl rfl

/-- C10.  When `lazyUrls` holds more (all-string) locators than the
selector resolves elements, the assignment loop walks past the resolved
set: the locators of all existing elements are assigned first, then the
out-of-range indexed write fails with the untyped runtime failure
(`TypeError`) — outside the specified error taxonomy — shown both at the
assignment level and through a full `media` call with one element and
two locators. -/
theorem media_excess_locators_type_failure :
    (∀ (urls : List JSVal) (ids : List Nat) (dom : List Elem),
      (∀ u ∈ urls, u.isString = true) →
      ids.length < urls.length →
      assignLazyUrls urls ids dom =
        Except.error (JSError.typeError msgUndefinedIndex,
          (urls.zip ids).foldl
            (fun d p => modifyIdx (fun e => setAttr e "data-lazy-url" p.1.asString)
              p.2 d) dom)) ∧
    (media initLazyState [blankElem] envOne JSVal.null (JSVal.str "img") JSVal.null
        (JSVal.arr [JSVal.str "a.jpg", JSVal.str "b.jpg"]) defaultOptionsObj =
      Except.error (JSError.typeError msgUndefinedIndex,
        { options := initialOptions, observer := some 0, nextGen := 1,
          observedTargets := [] },
        [setAttr blankElem "data-lazy-url" "a.jpg"]) ∧
    getAttr (setAttr blankElem "data-lazy-url" "a.jpg") "data-lazy-url" =
      some "a.jpg") := by
  refine ⟨?_, rfl, rfl⟩
  intro urls
  induction urls with
  | nil =>
    intro ids dom _ hlen
    simp at hlen
  | cons u urls ih =>
    intro ids dom hstr hlen
    have hu : u.isString = true := hstr u (List.mem_cons_self u urls)
    cases ids with
    | nil => simp [assignLazyUrls, hu]
    | cons id ids2 =>
      have step : assignLazyUrls (u :: urls) (id :: ids2) dom =
          assignLazyUrls urls ids2
            (modifyIdx (fun e => setAttr e "data-lazy-url" u.asString) id dom) := by
        simp [assignLazyUrls, hu]
      rw [step, ih ids2 _ (fun v hv => hstr v (List.mem_cons_of_mem u hv))
        (by simpa using hlen)]
      rw [List.zip_cons_cons, List.foldl_cons]

/-- C10 witness: a single all-string locator list against zero resolved
elements fails with the untyped runtime failure. -/
theorem media_excess_locators_type_failure_witness :
    assignLazyUrls [JSVal.str "a.jpg"] [] [] =
      Except.error (JSError.typeError msgUndefinedIndex, []) := by
  have h := media_excess_locators_type_failure.1 [JSVal.str "a.jpg"] [] []
    (by decide) (by decide)
  simpa using h

end Lazyload
